import Mathlib

/-!
# Verification of `deeppavlov_kg/core/ontology.py`

A shallow embedding of the ontology (taxonomy) store: a persisted rooted tree
of named "kinds", each carrying a set of property names.  The embedding follows
the Python source function by function:

* the `Entity` data of a node is its `properties` field (`Finset String`,
  matching a Python `set` of strings);
* a `treelib.Tree` is modelled as the list of its nodes in creation order
  (treelib keeps children in insertion order, so filtering the creation-ordered
  list by parent reproduces the ordering of `tree.children`).  Each node
  records its `identifier`, `tag`, optional `parent` identifier and its
  `properties`;
* the persistence gateway (`loader.load_ontology_graph` /
  `loader.save_ontology_graph`, which lives outside this core) is modelled
  from the spec as a `Store` holding `Option Tree`: `none` when nothing has
  ever been saved, `some t` for the last saved snapshot;
* functions that can fail to return normally (unbounded recursion in
  `create_kind`, a `TypeError` on `x in None`, an `IndexError` on
  `new_properties[idx]`) return `Option`, with `none` marking "no normal
  return" (divergence or an uncaught exception).
-/

namespace Ontology

/-- Python's `str.capitalize()`: first character uppercased, the rest
lowercased (ASCII behaviour, which is all this repository uses). -/
def pyCapitalize (s : String) : String :=
  match s.data with
  | [] => ""
  | c :: cs => String.mk (c.toUpper :: cs.map Char.toLower)

/-- One `treelib` node as used by `ontology.py`: `tag` and `identifier` are
both set to the kind name, `parent` is the identifier of the parent node
(`none` for the root), and the node data is an `Entity` whose only field is
`properties`. -/
structure TNode where
  identifier : String
  tag : String
  parent : Option String
  properties : Finset String
  deriving DecidableEq

/-- One `treelib.Tree`: its nodes in creation order. -/
structure Tree where
  nodes : List TNode
  deriving DecidableEq

/-- Model of `tree.get_node(i)`: the node with the given identifier, if any. -/
def getNode (t : Tree) (i : String) : Option TNode :=
  t.nodes.find? (fun nd => nd.identifier = i)

/-- Model of `tree.children(i)`: the direct children of node `i`, in creation
order. -/
def childrenOf (t : Tree) (i : String) : List TNode :=
  t.nodes.filter (fun nd => nd.parent = some i)

/-- Model of `tree.create_node(tag, identifier, parent, data)` as used here:
raises `DuplicatedNodeIdError` (modelled as `none`) when the identifier
already exists, otherwise appends the node.  At every call site in
`ontology.py` the parent, when given, has just been resolved, so the
library's absent-parent error cannot fire there. -/
def createNode (t : Tree) (tag id : String) (parent : Option String)
    (props : Finset String) : Option Tree :=
  match getNode t id with
  | some _ => none
  | none => some ⟨t.nodes ++ [⟨id, tag, parent, props⟩]⟩

/-- The parent identifier of node `i`, if `i` exists and has a parent. -/
def parentOf (t : Tree) (i : String) : Option String :=
  (getNode t i).bind (fun nd => nd.parent)

/-- The ancestor-or-self chain of `i`, following parent links, with fuel. -/
def chainFuel (t : Tree) : Nat → String → List String
  | 0, _ => []
  | n + 1, i =>
    i :: (match parentOf t i with
          | none => []
          | some p => chainFuel t n p)

/-- Whether `x` lies in the subtree rooted at `r` (`r` is an
ancestor-or-self of `x`). -/
def inSubtree (t : Tree) (r x : String) : Bool :=
  r ∈ chainFuel t (t.nodes.length + 1) x

/-- Model of `tree.remove_node(i)`: removes node `i` together with its whole
subtree. -/
def removeNode (t : Tree) (i : String) : Tree :=
  ⟨t.nodes.filter (fun nd => ! inSubtree t i nd.identifier)⟩

/-- Replace the property set of the node with identifier `i`. -/
def setProps (t : Tree) (i : String) (ps : Finset String) : Tree :=
  ⟨t.nodes.map (fun nd =>
    if nd.identifier = i then ⟨nd.identifier, nd.tag, nd.parent, ps⟩ else nd)⟩

/-- Modelled from the spec: the persistence gateway
(`loader.load_ontology_graph` / `loader.save_ontology_graph` live outside this
core).  A load returns the previously saved full tree snapshot, or an absent
value if none has ever been saved; a save atomically replaces the snapshot. -/
structure Store where
  persisted : Option Tree
  deriving DecidableEq

/-- The store before anything has ever been saved. -/
def emptyStore : Store := ⟨none⟩

/-- The fresh tree `create_kind` builds when no tree has been saved: only the
root node `"Kind"` with an empty property set. -/
def rootTree : Tree := ⟨[⟨"Kind", "Kind", none, ∅⟩]⟩

/-- The tree `create_kind` operates on: the `start_tree` argument when given,
else the loaded snapshot, else a fresh tree holding only the root. -/
def resolveTree (startTree : Option Tree) (s : Store) : Tree :=
  match startTree with
  | some t => t
  | none =>
    match s.persisted with
    | some t => t
    | none => rootTree

/-- The `try create_node / except DuplicatedNodeIdError` block of
`create_kind`: on success the new node (with the parent's properties folded
into the requested ones) is appended and the tree saved; on a duplicate
identifier nothing changes and nothing is saved. -/
def insertKind (tree : Tree) (kind parent : String) (props : Finset String)
    (parentNode : TNode) (s : Store) : Tree × Store :=
  match createNode tree kind kind (some parent) (props ∪ parentNode.properties) with
  | some tree2 => (tree2, ⟨some tree2⟩)
  | none => (tree, s)

/-- Model of
`create_kind(kind, parent="Kind", start_tree=None, kind_properties=None)`.

The Python function recurses when the parent is absent; the recursion is
modelled with explicit `fuel`, and a result of `none` means the call did not
return normally (out of fuel at every depth = divergence, or the unreachable
`AttributeError` on a parent still absent after self-repair).  The returned
pair is the tree the function returns and the store after its saves (the
recursive self-repair call saves the tree itself on success, and the outer
call saves again after its own insertion). -/
def createKind : Nat → String → String → Option Tree → Finset String → Store →
    Option (Tree × Store)
  | 0, _, _, _, _, _ => none
  | fuel + 1, kind, parent, startTree, kindProperties, s =>
    let kind := pyCapitalize kind
    let parent := pyCapitalize parent
    let tree : Tree := resolveTree startTree s
    match getNode tree parent with
    | some parentNode => some (insertKind tree kind parent kindProperties parentNode s)
    | none =>
      match createKind fuel parent "Kind" (some tree) ∅ s with
      | none => none
      | some (tree1, s1) =>
        match getNode tree1 parent with
        | none => none   -- would be an AttributeError on None in Python
        | some parentNode =>
          some (insertKind tree1 kind parent kindProperties parentNode s1)

/-- Model of `get_kind_node(tree, kind)` where the tree argument is the result
of a load: `none` when the tree is absent or the kind is not in it. -/
def getKindNode (tree : Option Tree) (kind : String) : Option TNode :=
  match tree with
  | none => none
  | some t => getNode t kind

/-- Model of `remove_kind(kind)`: load, resolve `kind` verbatim (no
normalization), remove the node with its subtree, save.  On an absent tree or
kind, returns without persisting. -/
def removeKind (kind : String) (s : Store) : Store :=
  match s.persisted with
  | none => s
  | some t =>
    match getNode t kind with
    | none => s
    | some _ => ⟨some (removeNode t kind)⟩

/-- Outcome of the property-replacement loop of
`update_properties_of_kind`. -/
inductive UpdRes where
  | ok (props : Finset String)
  | notFound
  | crash
  deriving DecidableEq

/-- The loop `for idx, prop in enumerate(old_properties)`: each old property
is checked against the live set (observing earlier replacements); when present
it is removed and `new_properties[idx]` added; when absent the loop aborts
(`notFound`); when `new_properties` is too short, `new_properties[idx]`
raises `IndexError` (`crash`). -/
def applyPairs : Finset String → List String → List String → UpdRes
  | props, [], _ => .ok props
  | props, old :: olds, news =>
    if old ∈ props then
      match news with
      | [] => .crash
      | nw :: news2 => applyPairs (insert nw (props.erase old)) olds news2
    else .notFound

/-- Model of `update_properties_of_kind(kind, old_properties,
new_properties)`: load, resolve `kind` verbatim; on success replace each old
property by its positional new property and save once; on a missing old
property return without saving (the partially mutated in-memory tree is
discarded, so the persisted tree is untouched).  A result of `none` models
the uncaught `IndexError`. -/
def updatePropertiesOfKind (kind : String) (oldProperties newProperties : List String)
    (s : Store) : Option Store :=
  match s.persisted with
  | none => some s
  | some t =>
    match getNode t kind with
    | none => some s
    | some kindNode =>
      match applyPairs kindNode.properties oldProperties newProperties with
      | .crash => none
      | .notFound => some s
      | .ok ps => some ⟨some (setProps t kind ps)⟩

/-- Model of `get_descendant_kinds(kind)`: on a falsy tree (absent, or empty,
which Python's `if tree:` cannot tell apart) the initial `[]` is returned; on
a present kind the tags of its direct children; on a kind missing from a
truthy tree, `None` (the caught `NodeIDAbsentError` branch). -/
def getDescendantKinds (kind : String) (s : Store) : Option (List String) :=
  match s.persisted with
  | none => some []
  | some t =>
    if t.nodes.isEmpty then some []
    else
      match getNode t kind with
      | none => none
      | some _ => some ((childrenOf t kind).map (fun nd => nd.tag))

/-- Model of `get_kind_properties(kind)`: the stored property set of the node
resolved verbatim, or `None` when the tree or the kind is absent. -/
def getKindProperties (kind : String) (s : Store) : Option (Finset String) :=
  (getKindNode s.persisted kind).map (fun nd => nd.properties)

/-- The loop of `are_properties_in_kind`: `prop not in kind_properties` with
`kind_properties = None` raises `TypeError` (modelled as `none`); the loop
short-circuits on the first missing property. -/
def arePropsLoop : List String → Option (Finset String) → Option Bool
  | [], _ => some true
  | _ :: _, none => none
  | p :: ps, some kp => if p ∈ kp then arePropsLoop ps (some kp) else some false

/-- Model of `are_properties_in_kind(list_of_property_kinds, kind)`: `some b`
when the Python function returns the boolean `b`, `none` when it raises. -/
def arePropertiesInKind (listOfPropertyKinds : List String) (kind : String)
    (s : Store) : Option Bool :=
  arePropsLoop listOfPropertyKinds (getKindProperties kind s)

/-- The mutating operations of the public API.  The read-only queries
`get_descendant_kinds`, `get_kind_properties` and `are_properties_in_kind`
never write to the store, as their types above show. -/
inductive Op where
  | create (kind parent : String) (props : Finset String)
  | remove (kind : String)
  | update (kind : String) (olds news : List String)
  deriving DecidableEq

/-- Run one operation against the store; `none` when the call does not return
normally. -/
def execOp (fuel : Nat) : Op → Store → Option Store
  | .create k p props, s => (createKind fuel k p none props s).map (fun r => r.2)
  | .remove k, s => some (removeKind k s)
  | .update k olds news, s => updatePropertiesOfKind k olds news s

/-- Run a sequence of operations left to right. -/
def runOps (fuel : Nat) : List Op → Store → Option Store
  | [], s => some s
  | op :: ops, s => (execOp fuel op s).bind (runOps fuel ops)

/-- The root invariant on a tree: the node `"Kind"` exists, is the root
(no parent) and has an empty property set. -/
def rootOk (t : Tree) : Prop :=
  ∃ nd, getNode t "Kind" = some nd ∧ nd.parent = none ∧ nd.properties = ∅

instance (t : Tree) : Decidable (rootOk t) := by
  unfold rootOk
  cases getNode t "Kind" with
  | none => exact .isFalse (by simp)
  | some nd => exact decidable_of_iff (nd.parent = none ∧ nd.properties = ∅) (by simp)

/-- Statement that every persisted tree satisfies the root invariant. -/
def storeRootOk (s : Store) : Prop :=
  ∀ t, s.persisted = some t → rootOk t

/-- Statement that `create_kind` diverges on the given arguments: it returns
normally under no amount of fuel. -/
def createKindDiverges (kind parent : String) (startTree : Option Tree)
    (props : Finset String) (s : Store) : Prop :=
  ∀ fuel, createKind fuel kind parent startTree props s = none

/-- The tree of Scenario A: root plus a propertyless `"Person"`. -/
def personTree : Tree :=
  ⟨[⟨"Kind", "Kind", none, ∅⟩, ⟨"Person", "Person", some "Kind", ∅⟩]⟩

/-- A tree holding root, `"Person"` (child of root), `"Employee"` (child of
`"Person"`) and `"Department"` (child of root), in that creation order. -/
def orgTree : Tree :=
  ⟨[⟨"Kind", "Kind", none, ∅⟩, ⟨"Person", "Person", some "Kind", ∅⟩,
    ⟨"Employee", "Employee", some "Person", ∅⟩,
    ⟨"Department", "Department", some "Kind", ∅⟩]⟩

/-- A tree holding root and a kind `"Thing"` whose property set is `{"a"}`. -/
def thingTree : Tree :=
  ⟨[⟨"Kind", "Kind", none, ∅⟩, ⟨"Thing", "Thing", some "Kind", {"a"}⟩]⟩

/-- The tree of `personTree` after `"Department"` has been auto-created as a
child of the root. -/
def deptTree : Tree :=
  ⟨[⟨"Kind", "Kind", none, ∅⟩, ⟨"Person", "Person", some "Kind", ∅⟩,
    ⟨"Department", "Department", some "Kind", ∅⟩]⟩

/-! ## Basic lemmas about tree lookup and the tree mutators -/

theorem getNode_id {t : Tree} {i : String} {nd : TNode} (h : getNode t i = some nd) :
    nd.identifier = i := by
  simpa using List.find?_some h

theorem getNode_append_left {t : Tree} {l : List TNode} {i : String} {nd : TNode}
    (h : getNode t i = some nd) : getNode ⟨t.nodes ++ l⟩ i = some nd := by
  unfold getNode at h ⊢
  simp [List.find?_append, h]

theorem getNode_append_one {t : Tree} {i : String} {nd : TNode}
    (h : getNode t i = none) (hnd : nd.identifier = i) :
    getNode ⟨t.nodes ++ [nd]⟩ i = some nd := by
  unfold getNode at h ⊢
  simp [List.find?_append, h, hnd]

theorem find?_filter_keep {α : Type} {p q : α → Bool} {l : List α} {a : α}
    (h : l.find? p = some a) (hq : q a = true) : (l.filter q).find? p = some a := by
  induction l with
  | nil => simp at h
  | cons x xs ih =>
    by_cases hx : p x
    · rw [List.find?_cons_of_pos _ hx] at h
      cases h
      simp [List.filter_cons, hq, List.find?_cons_of_pos _ hx]
    · rw [List.find?_cons_of_neg _ hx] at h
      by_cases hqx : q x
      · simp [List.filter_cons, hqx, List.find?_cons_of_neg _ hx, ih h]
      · simp [List.filter_cons, hqx, ih h]

theorem inSubtree_of_parent_none {t : Tree} {j i : String} {nd : TNode}
    (h : getNode t j = some nd) (hp : nd.parent = none) (hne : i ≠ j) :
    inSubtree t i j = false := by
  unfold inSubtree chainFuel
  simp [parentOf, h, hp, hne]

theorem getNode_removeNode_of_parent_none {t : Tree} {j i : String} {nd : TNode}
    (h : getNode t j = some nd) (hp : nd.parent = none) (hne : i ≠ j) :
    getNode (removeNode t i) j = some nd := by
  unfold getNode removeNode
  exact find?_filter_keep h (by
    simp [getNode_id h, inSubtree_of_parent_none h hp hne])

theorem getNode_setProps {t : Tree} {i j : String} {ps : Finset String} :
    getNode (setProps t i ps) j = (getNode t j).map
      (fun nd => if nd.identifier = i then ⟨nd.identifier, nd.tag, nd.parent, ps⟩ else nd) := by
  unfold getNode setProps
  rw [List.find?_map]
  have hpred : ((fun nd : TNode => decide (nd.identifier = j)) ∘
      (fun nd : TNode =>
        if nd.identifier = i then ⟨nd.identifier, nd.tag, nd.parent, ps⟩ else nd)) =
      (fun nd : TNode => decide (nd.identifier = j)) := by
    funext nd
    by_cases h : nd.identifier = i <;> simp [Function.comp, h]
  rw [hpred]

theorem getNode_setProps_ne {t : Tree} {i j : String} {ps : Finset String}
    (hne : j ≠ i) : getNode (setProps t i ps) j = getNode t j := by
  rw [getNode_setProps]
  cases h : getNode t j with
  | none => rfl
  | some nd => simp [getNode_id h, hne]

/-! ## Preservation of the root invariant -/

theorem rootOk_rootTree : rootOk rootTree := by decide

theorem rootOk_append {t : Tree} (h : rootOk t) (l : List TNode) :
    rootOk ⟨t.nodes ++ l⟩ := by
  obtain ⟨nd, hnd, hp, hprops⟩ := h
  exact ⟨nd, getNode_append_left hnd, hp, hprops⟩

theorem rootOk_removeNode {t : Tree} (h : rootOk t) {i : String} (hne : i ≠ "Kind") :
    rootOk (removeNode t i) := by
  obtain ⟨nd, hnd, hp, hprops⟩ := h
  exact ⟨nd, getNode_removeNode_of_parent_none hnd hp hne, hp, hprops⟩

theorem rootOk_setProps {t : Tree} (h : rootOk t) {k : String} {ps : Finset String}
    (hk : k ≠ "Kind" ∨ ps = ∅) : rootOk (setProps t k ps) := by
  obtain ⟨nd, hnd, hp, hprops⟩ := h
  rw [rootOk, getNode_setProps, hnd]
  by_cases hid : nd.identifier = k
  · rcases hk with hk | hk
    · have hkk : k = "Kind" := by rw [← hid, getNode_id hnd]
      exact absurd hkk hk
    · exact ⟨⟨nd.identifier, nd.tag, nd.parent, ps⟩, by simp [hid], hp, hk⟩
  · exact ⟨nd, by simp [hid], hp, hprops⟩

theorem insertKind_rootOk {tree : Tree} {k par : String} {props : Finset String}
    {pnode : TNode} {s : Store} {t2 : Tree} {s2 : Store}
    (h : insertKind tree k par props pnode s = (t2, s2))
    (ht : rootOk tree) (hs : storeRootOk s) : rootOk t2 ∧ storeRootOk s2 := by
  unfold insertKind createNode at h
  cases hgn : getNode tree k with
  | some old =>
    rw [hgn] at h
    cases h
    exact ⟨ht, hs⟩
  | none =>
    rw [hgn] at h
    cases h
    refine ⟨rootOk_append ht _, ?_⟩
    intro t' ht'
    cases ht'
    exact rootOk_append ht _

theorem resolveTree_rootOk {st : Option Tree} {s : Store} (hs : storeRootOk s)
    (hst : ∀ t0, st = some t0 → rootOk t0) : rootOk (resolveTree st s) := by
  unfold resolveTree
  cases st with
  | some t0 => exact hst t0 rfl
  | none =>
    cases hp : s.persisted with
    | some t => exact hs t hp
    | none => exact rootOk_rootTree

theorem createKind_preserves (fuel : Nat) :
    ∀ {kind parent : String} {st : Option Tree} {props : Finset String}
      {s : Store} {t2 : Tree} {s2 : Store},
      storeRootOk s → (∀ t0, st = some t0 → rootOk t0) →
      createKind fuel kind parent st props s = some (t2, s2) →
      rootOk t2 ∧ storeRootOk s2 := by
  induction fuel with
  | zero =>
    intro kind parent st props s t2 s2 _ _ h
    simp [createKind] at h
  | succ n ih =>
    intro kind parent st props s t2 s2 hs hst h
    have htree : rootOk (resolveTree st s) := resolveTree_rootOk hs hst
    rw [createKind] at h
    split at h
    · exact insertKind_rootOk (Option.some_injective _ h) htree hs
    · split at h
      · cases h
      · rename_i tree1 s1 hrec
        obtain ⟨h1, hs1⟩ := ih hs
          (fun t0 ht0 => by cases ht0; exact htree) hrec
        split at h
        · cases h
        · exact insertKind_rootOk (Option.some_injective _ h) h1 hs1

theorem removeKind_preserves {k : String} {s : Store}
    (hs : storeRootOk s) (hk : k ≠ "Kind") : storeRootOk (removeKind k s) := by
  cases hp : s.persisted with
  | none => simpa [removeKind, hp] using hs
  | some t =>
    cases hg : getNode t k with
    | none => simpa [removeKind, hp, hg] using hs
    | some nd =>
      have heq : removeKind k s = ⟨some (removeNode t k)⟩ := by
        simp [removeKind, hp, hg]
      rw [heq]
      intro t2 ht2
      cases ht2
      exact rootOk_removeNode (hs t hp) hk

theorem applyPairs_empty_ok {olds news : List String} {ps : Finset String}
    (h : applyPairs ∅ olds news = .ok ps) : ps = ∅ := by
  cases olds with
  | nil => simpa [applyPairs] using h.symm
  | cons o os => simp [applyPairs] at h

theorem updateProperties_preserves {k : String} {olds news : List String}
    {s s2 : Store} (hs : storeRootOk s)
    (h : updatePropertiesOfKind k olds news s = some s2) : storeRootOk s2 := by
  rw [updatePropertiesOfKind] at h
  cases hp : s.persisted with
  | none => simp only [hp] at h; cases h; exact hs
  | some t =>
    simp only [hp] at h
    cases hg : getNode t k with
    | none => simp only [hg] at h; cases h; exact hs
    | some nd =>
      simp only [hg] at h
      cases ha : applyPairs nd.properties olds news with
      | crash => simp only [ha] at h; cases h
      | notFound => simp only [ha] at h; cases h; exact hs
      | ok ps =>
        simp only [ha] at h
        cases h
        intro t2 ht2
        cases ht2
        have hroot := hs t hp
        by_cases hid : k = "Kind"
        · obtain ⟨rnd, hr, hrp, hrprops⟩ := hs t hp
          have hnr : nd = rnd := by
            rw [hid] at hg
            rw [hg] at hr
            exact Option.some_injective _ hr
          have hps : ps = ∅ := applyPairs_empty_ok (by rw [← hrprops, ← hnr]; exact ha)
          exact rootOk_setProps hroot (Or.inr hps)
        · exact rootOk_setProps hroot (Or.inl hid)

theorem execOp_preserves {fuel : Nat} {op : Op} {s s2 : Store}
    (hop : op ≠ Op.remove "Kind") (hs : storeRootOk s)
    (h : execOp fuel op s = some s2) : storeRootOk s2 := by
  cases op with
  | create k p props =>
    simp only [execOp] at h
    cases hc : createKind fuel k p none props s with
    | none => simp [hc] at h
    | some r =>
      simp only [hc, Option.map_some] at h
      cases h
      exact (createKind_preserves fuel hs (fun t0 ht0 => by cases ht0) hc).2
  | remove k =>
    unfold execOp at h
    cases h
    exact removeKind_preserves hs (fun hk => hop (by rw [hk]))
  | update k olds news =>
    exact updateProperties_preserves hs h

/-! ## Idempotence of Python's `str.capitalize` -/

theorem char_toNat_ofNat {n : Nat} (h : n.isValidChar) : (Char.ofNat n).toNat = n := by
  simp [Char.ofNat, dif_pos h, Char.ofNatAux, Char.toNat, UInt32.toNat,
    BitVec.toNat_ofNatLt]

theorem char_toUpper_toUpper (c : Char) : c.toUpper.toUpper = c.toUpper := by
  unfold Char.toUpper
  by_cases h : c.toNat ≥ 97 ∧ c.toNat ≤ 122
  · rw [if_pos h]
    have hv : (c.toNat - 32).isValidChar := Or.inl (by omega)
    rw [if_neg]
    rw [char_toNat_ofNat hv]
    omega
  · rw [if_neg h, if_neg h]

theorem char_toLower_toLower (c : Char) : c.toLower.toLower = c.toLower := by
  unfold Char.toLower
  by_cases h : c.toNat ≥ 65 ∧ c.toNat ≤ 90
  · rw [if_pos h]
    have hv : (c.toNat + 32).isValidChar := Or.inl (by omega)
    rw [if_neg]
    rw [char_toNat_ofNat hv]
    omega
  · rw [if_neg h, if_neg h]

theorem pyCapitalize_idem (s : String) : pyCapitalize (pyCapitalize s) = pyCapitalize s := by
  obtain ⟨l⟩ := s
  cases l with
  | nil => rfl
  | cons c cs =>
    show pyCapitalize (String.mk (c.toUpper :: cs.map Char.toLower)) = _
    unfold pyCapitalize
    simp only [List.map_map]
    rw [char_toUpper_toUpper]
    have hmap : List.map (Char.toLower ∘ Char.toLower) cs = List.map Char.toLower cs :=
      List.map_congr_left (fun a _ => char_toLower_toLower a)
    rw [hmap]

/-! ## Lemmas about the property-update loop and the membership loop -/

theorem applyPairs_not_crash {olds : List String} :
    ∀ {props : Finset String} {news : List String},
      olds.length ≤ news.length → applyPairs props olds news ≠ .crash := by
  induction olds with
  | nil =>
    intro props news _
    simp [applyPairs]
  | cons o os ih =>
    intro props news hlen
    cases news with
    | nil => simp at hlen
    | cons nw news2 =>
      rw [applyPairs]
      by_cases ho : o ∈ props
      · rw [if_pos ho]
        exact ih (by simpa using hlen)
      · rw [if_neg ho]
        simp

theorem arePropsLoop_total (S : List String) (kp : Finset String) :
    arePropsLoop S (some kp) = some (S.all (fun x => decide (x ∈ kp))) := by
  induction S with
  | nil => simp [arePropsLoop]
  | cons p ps ih =>
    rw [arePropsLoop]
    by_cases hp : p ∈ kp
    · rw [if_pos hp, ih]
      simp [hp]
    · rw [if_neg hp]
      simp [hp]

/-! ## Unfolding lemmas for `create_kind` -/

theorem createKind_succ_parent_some {fuel : Nat} {kind parent : String}
    {st : Option Tree} {props : Finset String} {s : Store} {pnode : TNode}
    (h : getNode (resolveTree st s) (pyCapitalize parent) = some pnode) :
    createKind (fuel + 1) kind parent st props s =
      some (insertKind (resolveTree st s) (pyCapitalize kind) (pyCapitalize parent)
        props pnode s) := by
  rw [createKind]
  simp only [h]

theorem createKind_succ_parent_none {fuel : Nat} {kind parent : String}
    {st : Option Tree} {props : Finset String} {s : Store}
    {tree1 : Tree} {s1 : Store} {pnode1 : TNode}
    (h : getNode (resolveTree st s) (pyCapitalize parent) = none)
    (hrec : createKind fuel (pyCapitalize parent) "Kind"
      (some (resolveTree st s)) ∅ s = some (tree1, s1))
    (hfound : getNode tree1 (pyCapitalize parent) = some pnode1) :
    createKind (fuel + 1) kind parent st props s =
      some (insertKind tree1 (pyCapitalize kind) (pyCapitalize parent) props pnode1 s1) := by
  rw [createKind]
  simp only [h, hrec, hfound]

theorem createKind_fresh {fuel : Nat} {k p : String} {props : Finset String}
    {s : Store} {t : Tree} {pnode : TNode}
    (hp : s.persisted = some t)
    (hnew : getNode t (pyCapitalize k) = none)
    (hpar : getNode t (pyCapitalize p) = some pnode) :
    createKind (fuel + 1) k p none props s =
      some (⟨t.nodes ++ [⟨pyCapitalize k, pyCapitalize k, some (pyCapitalize p),
          props ∪ pnode.properties⟩]⟩,
        ⟨some ⟨t.nodes ++ [⟨pyCapitalize k, pyCapitalize k, some (pyCapitalize p),
          props ∪ pnode.properties⟩]⟩⟩) := by
  have hres : resolveTree none s = t := by simp [resolveTree, hp]
  rw [createKind]
  simp only [hres, hpar, insertKind, createNode, hnew]

theorem createKind_duplicate {fuel : Nat} {k p : String} {props : Finset String}
    {s : Store} {t : Tree} {knd pnd : TNode}
    (hp : s.persisted = some t)
    (hk : getNode t (pyCapitalize k) = some knd)
    (hpar : getNode t (pyCapitalize p) = some pnd) :
    createKind (fuel + 1) k p none props s = some (t, s) := by
  have hres : resolveTree none s = t := by simp [resolveTree, hp]
  rw [createKind]
  simp only [hres, hpar, insertKind, createNode, hk]

theorem updateProperties_getNode_other {q j : String} {u t3 : Tree} {s3 : Store}
    {olds news : List String} (hne : j ≠ q)
    (hupd : updatePropertiesOfKind q olds news ⟨some u⟩ = some s3)
    (hp3 : s3.persisted = some t3) :
    getNode t3 j = getNode u j := by
  rw [updatePropertiesOfKind] at hupd
  cases hg : getNode u q with
  | none =>
    simp only [hg] at hupd
    cases hupd
    cases hp3
    rfl
  | some nd2 =>
    simp only [hg] at hupd
    cases ha : applyPairs nd2.properties olds news with
    | crash => simp only [ha] at hupd; cases hupd
    | notFound =>
      simp only [ha] at hupd
      cases hupd
      cases hp3
      rfl
    | ok ps =>
      simp only [ha] at hupd
      cases hupd
      cases hp3
      exact getNode_setProps_ne hne

/-! ## Divergence of `create_kind` on an empty persisted tree -/

theorem createKind_emptyTree_aux (s : Store) :
    ∀ (fuel : Nat) (kind : String),
      createKind fuel kind "Kind" (some ⟨[]⟩) ∅ s = none := by
  intro fuel
  induction fuel with
  | zero => intro kind; rfl
  | succ n ih =>
    intro kind
    have hcap : pyCapitalize "Kind" = "Kind" := by decide
    have hres : resolveTree (some ⟨[]⟩) s = ⟨[]⟩ := rfl
    have hget : getNode ⟨[]⟩ (pyCapitalize "Kind") = none := by rw [hcap]; rfl
    rw [createKind]
    simp only [hres, hget, ih (pyCapitalize "Kind")]

theorem runOps_preserves {fuel : Nat} :
    ∀ {ops : List Op} {s s2 : Store}, Op.remove "Kind" ∉ ops → storeRootOk s →
      runOps fuel ops s = some s2 → storeRootOk s2 := by
  intro ops
  induction ops with
  | nil =>
    intro s s2 _ hs h
    cases h
    exact hs
  | cons op ops ih =>
    intro s s2 hmem hs h
    rw [runOps] at h
    cases he : execOp fuel op s with
    | none => rw [he] at h; cases h
    | some s1 =>
      rw [he] at h
      have hop : op ≠ Op.remove "Kind" := fun heq => hmem (heq ▸ List.mem_cons_self op ops)
      exact ih (fun hmem2 => hmem (List.mem_cons_of_mem op hmem2))
        (execOp_preserves hop hs he) h

/-! ## The claims -/

/-- C1 (amended): starting from an empty store, for any sequence of mutating
operations that never calls `remove_kind` with the exact argument `"Kind"`,
every tree persisted along the way — in particular the one persisted after
the last operation — contains the root node `"Kind"` with no parent and an
empty property set.  (Without that restriction the claim fails:
`remove_kind("Kind")` persists an empty tree, see the counterexample.) -/
theorem claim_c1_root_invariant (fuel : Nat) (ops : List Op) (s2 : Store)
    (hnr : Op.remove "Kind" ∉ ops)
    (hrun : runOps fuel ops emptyStore = some s2) :
    storeRootOk s2 :=
  runOps_preserves hnr (fun t ht => by simp [emptyStore] at ht) hrun

/-- C1 counterexample: after `create_kind("Person")` followed by
`remove_kind("Kind")`, the persisted tree is empty — the root `"Kind"` is
gone, refuting the claim that the root survives every operation including
`remove_kind` applied to `"Kind"` itself. -/
theorem claim_c1_counterexample :
    runOps 2 [Op.create "Person" "Kind" ∅, Op.remove "Kind"] emptyStore =
      some ⟨some ⟨[]⟩⟩ ∧ ¬ rootOk ⟨[]⟩ := by
  exact ⟨by decide, by decide⟩

/-- C1 witness: the single-operation sequence `create_kind("Person")` reaches
a store whose persisted tree satisfies the root invariant. -/
theorem claim_c1_witness :
    Op.remove "Kind" ∉ [Op.create "Person" "Kind" (∅ : Finset String)] ∧
    runOps 2 [Op.create "Person" "Kind" ∅] emptyStore = some ⟨some personTree⟩ ∧
    storeRootOk ⟨some personTree⟩ :=
  ⟨by decide, by decide,
    claim_c1_root_invariant 2 [Op.create "Person" "Kind" ∅] ⟨some personTree⟩
      (by decide) (by decide)⟩

/-- C2 (amended): when the kind already exists (after normalization) in the
loaded tree and the named parent also resolves, `create_kind` is a complete
no-op: it returns the loaded tree unchanged and leaves the store untouched —
in particular the pre-existing node's properties are not updated.  (When the
named parent is absent the call is not a no-op: the parent is auto-created
and persisted, see the counterexample.) -/
theorem claim_c2_duplicate_noop (fuel : Nat) (k p : String) (props : Finset String)
    (s : Store) (t : Tree) (knd pnd : TNode)
    (hp : s.persisted = some t)
    (hk : getNode t (pyCapitalize k) = some knd)
    (hpar : getNode t (pyCapitalize p) = some pnd) :
    createKind (fuel + 1) k p none props s = some (t, s) :=
  createKind_duplicate hp hk hpar

/-- C2 counterexample: with `"Person"` already in the tree but the named
parent `"Department"` absent, `create_kind("Person", "Department")` is not a
no-op: the missing parent is auto-created under the root and the grown tree
is persisted, so the persisted tree is no longer equal to the original. -/
theorem claim_c2_counterexample :
    createKind 2 "Person" "Department" none ∅ ⟨some personTree⟩ =
      some (deptTree, ⟨some deptTree⟩) ∧
    deptTree ≠ personTree ∧
    getNode deptTree "Department" = some ⟨"Department", "Department", some "Kind", ∅⟩ := by
  exact ⟨by decide, by decide, by decide⟩

/-- C2 witness: re-creating `"Person"` under the root with fresh properties
leaves tree and store unchanged. -/
theorem claim_c2_witness :
    createKind (1 + 1) "Person" "Kind" none {"x"} ⟨some personTree⟩ =
      some (personTree, ⟨some personTree⟩) :=
  claim_c2_duplicate_noop 1 "Person" "Kind" {"x"} ⟨some personTree⟩ personTree
    ⟨"Person", "Person", some "Kind", ∅⟩ ⟨"Kind", "Kind", none, ∅⟩
    rfl (by decide) (by decide)

/-- C3: soundness of the membership check holds — whenever the kind resolves,
`are_properties_in_kind(S, k)` returns the boolean "every element of `S` is
in `k`'s stored property set" — but totality fails: when the kind (or the
whole tree) is absent, `get_kind_properties` returns `None` and the loop's
first membership test `prop not in None` raises an uncaught `TypeError`
(modelled as `none`), contradicting the claim that a boolean is always
returned. -/
theorem claim_c3_membership (S : List String) (k : String) (s : Store)
    (kp : Finset String) (hkp : getKindProperties k s = some kp) :
    arePropertiesInKind S k s = some (S.all (fun x => decide (x ∈ kp))) ∧
    arePropertiesInKind ["a"] "Ghost" emptyStore = none := by
  constructor
  · rw [arePropertiesInKind, hkp]
    exact arePropsLoop_total S kp
  · rfl

/-- C3 witness: on the kind `"Thing"` with stored properties `{"a"}` the
check returns a boolean, and on the absent kind `"Ghost"` it faults. -/
theorem claim_c3_witness :
    arePropertiesInKind ["a"] "Thing" ⟨some thingTree⟩ =
      some ((["a"]).all (fun x => decide (x ∈ ({"a"} : Finset String)))) ∧
    arePropertiesInKind ["a"] "Ghost" emptyStore = none :=
  claim_c3_membership ["a"] "Thing" ⟨some thingTree⟩ {"a"} (by decide)

/-- C4: for a kind present in the loaded tree and equally long property
lists, `update_properties_of_kind` never faults and is atomic with respect to
persistence: either every positional pair is applied to the live set and the
resulting tree is persisted (the kind's stored set becoming the loop's
result), or some old property is missing from the live set and the store —
hence the persisted property set of the kind — is left exactly as it was. -/
theorem claim_c4_atomic_update (s : Store) (t : Tree) (k : String) (nd : TNode)
    (olds news : List String)
    (hp : s.persisted = some t) (hk : getNode t k = some nd)
    (hlen : olds.length = news.length) :
    (∃ ps, applyPairs nd.properties olds news = UpdRes.ok ps ∧
      updatePropertiesOfKind k olds news s = some ⟨some (setProps t k ps)⟩ ∧
      getKindProperties k ⟨some (setProps t k ps)⟩ = some ps) ∨
    (applyPairs nd.properties olds news = UpdRes.notFound ∧
      updatePropertiesOfKind k olds news s = some s ∧
      getKindProperties k s = some nd.properties) := by
  have hnc : applyPairs nd.properties olds news ≠ .crash :=
    applyPairs_not_crash (le_of_eq hlen)
  cases ha : applyPairs nd.properties olds news with
  | crash => exact absurd ha hnc
  | notFound =>
    refine Or.inr ⟨rfl, ?_, ?_⟩
    · simp [updatePropertiesOfKind, hp, hk, ha]
    · simp [getKindProperties, getKindNode, hp, hk]
  | ok ps =>
    refine Or.inl ⟨ps, rfl, ?_, ?_⟩
    · simp [updatePropertiesOfKind, hp, hk, ha]
    · simp [getKindProperties, getKindNode, getNode_setProps, hk, getNode_id hk]

/-- C4 witness: replacing `"a"` by `"b"` on the kind `"Thing"` (stored set
`{"a"}`) takes the success branch of the atomicity theorem. -/
theorem claim_c4_witness :
    (∃ ps, applyPairs (TNode.properties ⟨"Thing", "Thing", some "Kind", {"a"}⟩)
        ["a"] ["b"] = UpdRes.ok ps ∧
      updatePropertiesOfKind "Thing" ["a"] ["b"] ⟨some thingTree⟩ =
        some ⟨some (setProps thingTree "Thing" ps)⟩ ∧
      getKindProperties "Thing" ⟨some (setProps thingTree "Thing" ps)⟩ = some ps) ∨
    (applyPairs (TNode.properties ⟨"Thing", "Thing", some "Kind", {"a"}⟩)
        ["a"] ["b"] = UpdRes.notFound ∧
      updatePropertiesOfKind "Thing" ["a"] ["b"] ⟨some thingTree⟩ =
        some ⟨some thingTree⟩ ∧
      getKindProperties "Thing" ⟨some thingTree⟩ =
        some (TNode.properties ⟨"Thing", "Thing", some "Kind", {"a"}⟩)) :=
  claim_c4_atomic_update ⟨some thingTree⟩ thingTree "Thing"
    ⟨"Thing", "Thing", some "Kind", {"a"}⟩ ["a"] ["b"] rfl (by decide) rfl

/-- C5 (amended): contrary to the claim, none of `remove_kind`,
`update_properties_of_kind`, `get_descendant_kinds`, `get_kind_properties`
and `are_properties_in_kind` normalizes its kind argument — only
`create_kind` capitalizes.  Each of the five resolves the verbatim string, so
when the literal spelling is absent from the tree they all take their
absent-kind path even if the normalized spelling is present: properties and
descendants queries report absent, removal and update leave the store
untouched, and the membership check faults on a non-empty list. -/
theorem claim_c5_no_normalization (s : Store) (t : Tree) (k : String) (cnd : TNode)
    (olds news : List String) (q : String) (qs : List String)
    (hp : s.persisted = some t) (hne : t.nodes ≠ [])
    (habs : getNode t k = none)
    (_hcap : getNode t (pyCapitalize k) = some cnd) :
    getKindProperties k s = none ∧
    removeKind k s = s ∧
    updatePropertiesOfKind k olds news s = some s ∧
    getDescendantKinds k s = none ∧
    arePropertiesInKind (q :: qs) k s = none := by
  have hemp : t.nodes.isEmpty = false := by
    cases hl : t.nodes with
    | nil => exact absurd hl hne
    | cons a l => rfl
  refine ⟨?_, ?_, ?_, ?_, ?_⟩
  · simp [getKindProperties, getKindNode, hp, habs]
  · simp [removeKind, hp, habs]
  · simp [updatePropertiesOfKind, hp, habs]
  · simp [getDescendantKinds, hp, habs, hemp]
  · simp [arePropertiesInKind, getKindProperties, getKindNode, hp, habs, arePropsLoop]

/-- C5 counterexample: `create_kind("thing", kind_properties={"a"})` stores
the node under the normalized identifier `"Thing"`; the claim says the other
operations also normalize, but calling them with the original spelling
`"thing"` hits their not-found paths (and the membership check even faults),
while the capitalized spelling reaches the node. -/
theorem claim_c5_counterexample :
    createKind 2 "thing" "Kind" none {"a"} emptyStore =
      some (thingTree, ⟨some thingTree⟩) ∧
    getNode thingTree "Thing" = some ⟨"Thing", "Thing", some "Kind", {"a"}⟩ ∧
    getKindProperties "thing" ⟨some thingTree⟩ = none ∧
    removeKind "thing" ⟨some thingTree⟩ = ⟨some thingTree⟩ ∧
    updatePropertiesOfKind "thing" ["a"] ["b"] ⟨some thingTree⟩ =
      some ⟨some thingTree⟩ ∧
    updatePropertiesOfKind "Thing" ["a"] ["b"] ⟨some thingTree⟩ =
      some ⟨some (setProps thingTree "Thing" {"b"})⟩ ∧
    getDescendantKinds "thing" ⟨some thingTree⟩ = none ∧
    arePropertiesInKind ["a"] "thing" ⟨some thingTree⟩ = none := by
  exact ⟨by decide, by decide, by decide, by decide, by decide, by decide,
    by decide, by decide⟩

/-- C5 witness: the amended theorem applied to the store holding `"Thing"`
and the un-normalized spelling `"thing"`. -/
theorem claim_c5_witness :
    getKindProperties "thing" ⟨some thingTree⟩ = none ∧
    removeKind "thing" ⟨some thingTree⟩ = ⟨some thingTree⟩ ∧
    updatePropertiesOfKind "thing" ["a"] ["b"] ⟨some thingTree⟩ =
      some ⟨some thingTree⟩ ∧
    getDescendantKinds "thing" ⟨some thingTree⟩ = none ∧
    arePropertiesInKind ["a"] "thing" ⟨some thingTree⟩ = none :=
  claim_c5_no_normalization ⟨some thingTree⟩ thingTree "thing"
    ⟨"Thing", "Thing", some "Kind", {"a"}⟩ ["a"] ["b"] "a" []
    rfl (by decide) (by decide) (by decide)

/-- C6: a successful fresh creation stores on the new node exactly the
requested properties united with the resolved parent's properties, evaluated
once at creation time; any later `update_properties_of_kind` on the parent
leaves the new node's stored entry untouched. -/
theorem claim_c6_inheritance (fuel : Nat) (k p : String) (props : Finset String)
    (s : Store) (t : Tree) (pnode : TNode)
    (hp : s.persisted = some t)
    (hnew : getNode t (pyCapitalize k) = none)
    (hpar : getNode t (pyCapitalize p) = some pnode) :
    ∃ t2, createKind (fuel + 1) k p none props s = some (t2, ⟨some t2⟩) ∧
      getNode t2 (pyCapitalize k) =
        some ⟨pyCapitalize k, pyCapitalize k, some (pyCapitalize p),
          props ∪ pnode.properties⟩ ∧
      ∀ olds news s3 t3,
        updatePropertiesOfKind (pyCapitalize p) olds news ⟨some t2⟩ = some s3 →
        s3.persisted = some t3 →
        getNode t3 (pyCapitalize k) = getNode t2 (pyCapitalize k) := by
  have hKP : pyCapitalize k ≠ pyCapitalize p := by
    intro he
    rw [he, hpar] at hnew
    cases hnew
  refine ⟨_, createKind_fresh hp hnew hpar, getNode_append_one hnew rfl, ?_⟩
  intro olds news s3 t3 hupd hp3
  exact updateProperties_getNode_other hKP hupd hp3

/-- C6 witness: creating `"Employee"` under `"Person"` (stored set `{"x"}`)
with requested properties `{"salary"}` on a concrete store. -/
theorem claim_c6_witness :
    ∃ t2, createKind (1 + 1) "Employee" "Person" none {"salary"}
        ⟨some ⟨[⟨"Kind", "Kind", none, ∅⟩, ⟨"Person", "Person", some "Kind", {"x"}⟩]⟩⟩ =
        some (t2, ⟨some t2⟩) ∧
      getNode t2 (pyCapitalize "Employee") =
        some ⟨pyCapitalize "Employee", pyCapitalize "Employee",
          some (pyCapitalize "Person"),
          {"salary"} ∪ TNode.properties ⟨"Person", "Person", some "Kind", {"x"}⟩⟩ ∧
      ∀ olds news s3 t3,
        updatePropertiesOfKind (pyCapitalize "Person") olds news ⟨some t2⟩ = some s3 →
        s3.persisted = some t3 →
        getNode t3 (pyCapitalize "Employee") = getNode t2 (pyCapitalize "Employee") :=
  claim_c6_inheritance 1 "Employee" "Person" {"salary"}
    ⟨some ⟨[⟨"Kind", "Kind", none, ∅⟩, ⟨"Person", "Person", some "Kind", {"x"}⟩]⟩⟩
    ⟨[⟨"Kind", "Kind", none, ∅⟩, ⟨"Person", "Person", some "Kind", {"x"}⟩]⟩
    ⟨"Person", "Person", some "Kind", {"x"}⟩ rfl (by decide) (by decide)

/-- C7 (amended): `create_kind` terminates — with recursion depth at most one
(fuel two suffices) — from every store whose persisted trees satisfy the root
invariant, which holds for every store reachable without
`remove_kind("Kind")`; the blanket claim that every invocation terminates is
false, because `remove_kind("Kind")` persists an empty tree on which the
self-repair recursion can never find the root and never returns (see the
counterexample). -/
theorem claim_c7_termination (fuel : Nat) (k p : String) (props : Finset String)
    (s : Store) (hs : storeRootOk s) :
    ∃ r, createKind (fuel + 2) k p none props s = some r := by
  have htree : rootOk (resolveTree none s) :=
    resolveTree_rootOk hs (fun t0 h0 => by cases h0)
  obtain ⟨rnd, hroot, hrp, hrprops⟩ := htree
  cases hpn : getNode (resolveTree none s) (pyCapitalize p) with
  | some pnode => exact ⟨_, createKind_succ_parent_some hpn⟩
  | none =>
    have hcapK : pyCapitalize "Kind" = "Kind" := by decide
    have hrootK : getNode (resolveTree (some (resolveTree none s)) s)
        (pyCapitalize "Kind") = some rnd := by rw [hcapK]; exact hroot
    have hinner := @createKind_succ_parent_some fuel (pyCapitalize p) "Kind"
      (some (resolveTree none s)) ∅ s rnd hrootK
    rw [pyCapitalize_idem, hcapK] at hinner
    have hres1 : resolveTree (some (resolveTree none s)) s = resolveTree none s := rfl
    rw [hres1] at hinner
    have hins : insertKind (resolveTree none s) (pyCapitalize p) "Kind" ∅ rnd s =
        (⟨(resolveTree none s).nodes ++ [⟨pyCapitalize p, pyCapitalize p,
            some "Kind", ∅ ∪ rnd.properties⟩]⟩,
          ⟨some ⟨(resolveTree none s).nodes ++ [⟨pyCapitalize p, pyCapitalize p,
            some "Kind", ∅ ∪ rnd.properties⟩]⟩⟩) := by
      simp [insertKind, createNode, hpn]
    rw [hins] at hinner
    have hfound : getNode (⟨(resolveTree none s).nodes ++ [⟨pyCapitalize p,
        pyCapitalize p, some "Kind", ∅ ∪ rnd.properties⟩]⟩ : Tree)
        (pyCapitalize p) = some ⟨pyCapitalize p, pyCapitalize p, some "Kind",
          ∅ ∪ rnd.properties⟩ :=
      getNode_append_one hpn rfl
    exact ⟨_, createKind_succ_parent_none hpn hinner hfound⟩

/-- C7 counterexample: the empty persisted tree is reachable (create
`"Person"`, then remove `"Kind"`), and from it `create_kind("Employee")`
never returns: the self-repair recursion re-invokes itself with the same
empty tree at every depth. -/
theorem claim_c7_counterexample :
    runOps 2 [Op.create "Person" "Kind" ∅, Op.remove "Kind"] emptyStore =
      some ⟨some ⟨[]⟩⟩ ∧
    createKindDiverges "Employee" "Kind" none ∅ ⟨some ⟨[]⟩⟩ := by
  refine ⟨by decide, ?_⟩
  intro fuel
  cases fuel with
  | zero => rfl
  | succ n =>
    have hres : resolveTree none ⟨some ⟨[]⟩⟩ = ⟨[]⟩ := rfl
    have hget : getNode ⟨[]⟩ (pyCapitalize "Kind") = none := by
      have : pyCapitalize "Kind" = "Kind" := by decide
      rw [this]; rfl
    rw [createKind]
    simp only [hres, hget, createKind_emptyTree_aux]

/-- C7 witness: from the empty store (no snapshot ever saved) `create_kind`
of a kind under a missing parent returns within fuel two. -/
theorem claim_c7_witness :
    storeRootOk emptyStore ∧
    ∃ r, createKind (0 + 2) "Manager" "Department" none ∅ emptyStore = some r :=
  have hs : storeRootOk emptyStore := fun t ht => by simp [emptyStore] at ht
  ⟨hs, claim_c7_termination 0 "Manager" "Department" ∅ emptyStore hs⟩

/-- C8: `get_descendant_kinds` returns exactly the tags of the direct
children of the named kind in the tree's creation order (not the full
descendant subtree: in the chain root → `"Person"` → `"Employee"` the root
lists only `"Person"`); with no saved tree it returns the empty sequence; and
for a kind missing from a present (non-empty) tree it returns the absent
result `none`, which is distinct from `some []` (a kind that exists but has
no children). -/
theorem claim_c8_descendants :
    (∀ k, getDescendantKinds k emptyStore = some []) ∧
    (∀ (s : Store) (t : Tree) (k : String), s.persisted = some t →
      t.nodes ≠ [] → getNode t k = none → getDescendantKinds k s = none) ∧
    (∀ (s : Store) (t : Tree) (k : String) (nd : TNode), s.persisted = some t →
      getNode t k = some nd →
      getDescendantKinds k s = some ((childrenOf t k).map (fun c => c.tag))) ∧
    getDescendantKinds "Kind" ⟨some orgTree⟩ = some ["Person", "Department"] ∧
    getDescendantKinds "Person" ⟨some orgTree⟩ = some ["Employee"] ∧
    getDescendantKinds "Employee" ⟨some orgTree⟩ = some [] ∧
    getDescendantKinds "Ghost" ⟨some orgTree⟩ = none := by
  refine ⟨?_, ?_, ?_, by decide, by decide, by decide, by decide⟩
  · intro k
    rfl
  · intro s t k hp hne habs
    have hemp : t.nodes.isEmpty = false := by
      cases hl : t.nodes with
      | nil => exact absurd hl hne
      | cons a l => rfl
    simp [getDescendantKinds, hp, habs, hemp]
  · intro s t k nd hp hk
    have hk2 : t.nodes.find? (fun c => c.identifier = k) = some nd := hk
    have hmem := List.mem_of_find?_eq_some hk2
    have hemp : t.nodes.isEmpty = false := by
      cases hl : t.nodes with
      | nil => rw [hl] at hmem; cases hmem
      | cons a l => rfl
    simp [getDescendantKinds, hp, hk, hemp]

/-- C8 witness: the general clauses of the theorem evaluated on a concrete
store: an unsaved store yields the empty sequence, and `"Person"` in the
concrete tree yields its direct children. -/
theorem claim_c8_witness :
    getDescendantKinds "Zed" emptyStore = some [] ∧
    getDescendantKinds "Person" ⟨some orgTree⟩ =
      some ((childrenOf orgTree "Person").map (fun c => c.tag)) :=
  ⟨claim_c8_descendants.1 "Zed",
    claim_c8_descendants.2.2.1 ⟨some orgTree⟩ orgTree "Person"
      ⟨"Person", "Person", some "Kind", ∅⟩ rfl (by decide)⟩

/-- C9: pair processing in `update_properties_of_kind` is left to right
against the live property set.  On the kind `"Thing"` with stored set
`{"a"}`: replacing `["a", "a"]` by `["b", "c"]` fails (after the first pair
the live set is `{"b"}`, so the second `"a"` is no longer present) and the
store is unchanged, while replacing `["a", "b"]` by `["b", "c"]` succeeds
with final set `{"c"}`, because the first pair introduces `"b"` before the
second pair checks it. -/
theorem claim_c9_sequential_pairs :
    updatePropertiesOfKind "Thing" ["a", "a"] ["b", "c"] ⟨some thingTree⟩ =
      some ⟨some thingTree⟩ ∧
    applyPairs {"a"} ["a", "a"] ["b", "c"] = UpdRes.notFound ∧
    updatePropertiesOfKind "Thing" ["a", "b"] ["b", "c"] ⟨some thingTree⟩ =
      some ⟨some (setProps thingTree "Thing" {"c"})⟩ ∧
    getKindProperties "Thing" ⟨some (setProps thingTree "Thing" {"c"})⟩ =
      some {"c"} := by
  exact ⟨by decide, by decide, by decide, by decide⟩

/-- C10: with an empty property list the loop of `are_properties_in_kind` is
never entered, so the call returns `True` for every kind name and every store
state — even when the kind is absent or no tree has ever been saved, the
`None` returned by `get_kind_properties` is never inspected. -/
theorem claim_c10_vacuous_membership (k : String) (s : Store) :
    arePropertiesInKind [] k s = some true := rfl

/-- C10 witness: the vacuous check on an absent kind of the empty store. -/
theorem claim_c10_witness : arePropertiesInKind [] "Ghost" emptyStore = some true :=
  claim_c10_vacuous_membership "Ghost" emptyStore

end Ontology
